import Mathlib

/-!
Shallow embedding of the classification model core (flair/nn/model.py):
the model-card handling in Model.save, the gold/predicted label aggregation
and the scoring branch of Classifier.evaluate, the multi-label threshold
configuration, loss-target construction and the label materialization of
DefaultClassifier.predict.  Scores and thresholds are embedded as rationals;
fallible operations (KeyError, IndexError) return Option.
-/

/-- A single first-class lookup on string keyed association lists, embedding a
Python dict read (`m[k]` / `k in m`): returns the value at the first matching
key, none when the key is absent. -/
def dictGet {α : Type} : List (String × α) → String → Option α
  | [], _ => none
  | p :: rest, k => if p.1 = k then some p.2 else dictGet rest k

/-- Python dict write `m[k] = v`: overwrite in place when the key exists,
append a new entry otherwise (insertion order preserved). -/
def dictSet {α : Type} : List (String × α) → String → α → List (String × α)
  | [], k, v => [(k, v)]
  | p :: rest, k, v => if p.1 = k then (k, v) :: rest else p :: dictSet rest k v

/-- Modelled from the spec: the label dictionary (flair.data.Dictionary) is an
external collaborator not under src; per the spec it is an ordered set of
unique label strings with a stable bijective index-to-string mapping. -/
structure Dictionary where
  items : List String
deriving DecidableEq

/-- Modelled from the spec: add_item extends the ordered set only when the
item is new. -/
def Dictionary.add_item (d : Dictionary) (item : String) : Dictionary :=
  if item ∈ d.items then d else ⟨d.items ++ [item]⟩

/-- Modelled from the spec: the dense integer index of an item. -/
def Dictionary.get_idx_for_item (d : Dictionary) (item : String) : Nat :=
  d.items.indexOf item

/-- Modelled from the spec: the item stored at an index; none embeds the
IndexError on an out-of-range access. -/
def Dictionary.get_item_for_index (d : Dictionary) (idx : Nat) : Option String :=
  d.items.get? idx

/-- A label annotation: identifier of the sub-unit addressed, class value and
confidence score (model.py uses label.identifier, label.value, label.score). -/
structure Label where
  identifier : String
  value : String
  score : ℚ
deriving DecidableEq

/-- A data point carrying labels under named label types. -/
structure DataPoint where
  labels : List (String × Label)
deriving DecidableEq

/-- datapoint.get_labels(t): all labels stored under label type t, in order. -/
def DataPoint.get_labels (dp : DataPoint) (t : String) : List Label :=
  (dp.labels.filter (fun p => p.1 == t)).map Prod.snd

/-! ### Classifier.evaluate: aggregation of gold and predicted values
(model.py lines 204-260). -/

/-- The aggregation state of Classifier.evaluate: all_spans (first-seen order
of composite keys), all_true_values and all_predicted_values (dicts from
composite key to the list of values accumulated under it). -/
structure EvalAgg where
  all_spans : List String
  all_true_values : List (String × List String)
  all_predicted_values : List (String × List String)
deriving DecidableEq

def emptyAgg : EvalAgg := ⟨[], [], []⟩

/-- Record one value under a composite key: `d[k] = [v]` when the key is new,
`d[k].append(v)` otherwise (model.py lines 238-241 and 252-255). -/
def recordValue : List (String × List String) → String → String → List (String × List String)
  | [], k, v => [(k, [v])]
  | p :: rest, k, v => if p.1 = k then (p.1, p.2 ++ [v]) :: rest else p :: recordValue rest k v

/-- Track a composite key in all_spans in first-seen order
(model.py lines 243-244 and 257-258). -/
def addSpan (spans : List String) (rep : String) : List String :=
  if rep ∈ spans then spans else spans ++ [rep]

/-- The value recorded for a gold label: substituted by the fixed placeholder
when a gold label dictionary is supplied and maps the value to the unknown
sentinel index 0 (model.py lines 234-236).  The external dictionary is
abstracted by its index function. -/
def goldRecordedValue (gd : Option (String → Nat)) (v : String) : String :=
  match gd with
  | some d => if d v = 0 then "<unk>" else v
  | none => v

/-- The gold-label loop body of evaluate for one data point
(model.py lines 231-246). -/
def processGold (goldType : String) (gd : Option (String → Nat)) (agg : EvalAgg)
    (sid : Nat) (dp : DataPoint) : EvalAgg :=
  (dp.get_labels goldType).foldl (fun agg l =>
    { agg with
      all_true_values :=
        recordValue agg.all_true_values (toString sid ++ ": " ++ l.identifier)
          (goldRecordedValue gd l.value),
      all_spans := addSpan agg.all_spans (toString sid ++ ": " ++ l.identifier) }) agg

/-- The predicted-label loop body of evaluate for one data point; predicted
values are recorded unchanged (model.py lines 248-258). -/
def processPred (agg : EvalAgg) (sid : Nat) (dp : DataPoint) : EvalAgg :=
  (dp.get_labels "predicted").foldl (fun agg l =>
    { agg with
      all_predicted_values :=
        recordValue agg.all_predicted_values (toString sid ++ ": " ++ l.identifier) l.value,
      all_spans := addSpan agg.all_spans (toString sid ++ ": " ++ l.identifier) }) agg

/-- Processing of one data point in evaluate: gold labels, then predicted
labels, then `sentence_id += 1` (model.py lines 229-260). -/
def processPoint (goldType : String) (gd : Option (String → Nat)) (st : EvalAgg × Nat)
    (dp : DataPoint) : EvalAgg × Nat :=
  (processPred (processGold goldType gd st.1 st.2 dp) st.2 dp, st.2 + 1)

/-- The whole aggregation pass of evaluate over the data points of the call,
with sentence_id starting at 0 and increasing across batches. -/
def aggregate (goldType : String) (gd : Option (String → Nat)) (dps : List DataPoint) : EvalAgg :=
  (dps.foldl (processPoint goldType gd) (emptyAgg, 0)).1

/-- The evaluation label dictionary: "O" first, then every distinct recorded
gold value in encounter order, then every distinct predicted value
(model.py lines 318-325). -/
def evalDictionary (agg : EvalAgg) : Dictionary :=
  let d := Dictionary.add_item ⟨[]⟩ "O"
  let d := agg.all_true_values.foldl (fun d p => p.2.foldl Dictionary.add_item d) d
  agg.all_predicted_values.foldl (fun d p => p.2.foldl Dictionary.add_item d) d

/-- Multi-hot indicator vector over the evaluation dictionary for a value
list: np.zeros(len(dict)) with index of each value set to 1
(model.py lines 336-343). -/
def multiHot (d : Dictionary) (values : List String) : List Nat :=
  values.foldl (fun vec v => vec.set (d.get_idx_for_item v) 1) (List.replicate d.items.length 0)

/-- The per-span (y_true, y_pred) rows: for each key of all_spans the gold
value list, or the singleton O when the key has no gold entry, and likewise
for predicted (model.py lines 331-344). -/
def spanRows (agg : EvalAgg) (d : Dictionary) : List (List Nat × List Nat) :=
  agg.all_spans.map (fun span =>
    (multiHot d ((dictGet agg.all_true_values span).getD ["O"]),
     multiHot d ((dictGet agg.all_predicted_values span).getD ["O"])))

/-- Total number of recorded gold and predicted value occurrences in a call. -/
def totalOccurrences (agg : EvalAgg) : Nat :=
  (agg.all_true_values.map (fun p => p.2.length)).sum
    + (agg.all_predicted_values.map (fun p => p.2.length)).sum

/-- The scalar scores and report assembled by evaluate. -/
structure ScoresResult where
  main_score : ℚ
  accuracy_score : ℚ
  precision_score : ℚ
  recall_score : ℚ
  micro_f_score : ℚ
  macro_f_score : ℚ
  classification_report : String
  classification_report_dict : List (String × List (String × ℚ))
deriving DecidableEq

/-- The fallback of evaluate: every score defaulted to 0, empty report and
empty report dict (model.py lines 379-386). -/
def zeroScores : ScoresResult := ⟨0, 0, 0, 0, 0, 0, "", []⟩

/-- The scoring branch of evaluate (model.py lines 360-386): the computed
sklearn scores, here an opaque parameter standing for the external metric
library, are returned only when the number of keys of all_true_values plus
the number of keys of all_predicted_values exceeds 1; otherwise the all-zero
fallback is returned. -/
def evalScores (computed : ScoresResult) (agg : EvalAgg) : ScoresResult :=
  if agg.all_true_values.length + agg.all_predicted_values.length > 1 then computed
  else zeroScores

/-! ### DefaultClassifier: multi-label threshold configuration
(model.py lines 471-483 and 615-620). -/

/-- The argument handed to the multi_label_threshold setter: a Python dict of
per-class thresholds, or any non-dict value (the scalar constructor default
0.5 among them). -/
inductive ThresholdValue
  | scalar (x : ℚ)
  | dict (m : List (String × ℚ))
deriving DecidableEq

/-- The multi_label_threshold setter (model.py lines 475-483): a dict is
accepted only when it holds a default key, otherwise the setter raises
(none); any non-dict value x is stored as the dict with x under default.
The constructor assigns through this same setter. -/
def set_multi_label_threshold : ThresholdValue → Option (List (String × ℚ))
  | ThresholdValue.dict m =>
    if (dictGet m "default").isSome then some m else none
  | ThresholdValue.scalar x => some [("default", x)]

/-- _get_label_threshold (model.py lines 615-620): reads the default entry
first (none embeds the KeyError when it is absent), then the per-class
override when one exists. -/
def get_label_threshold (thr : List (String × ℚ)) (label_value : String) : Option ℚ :=
  match dictGet thr "default" with
  | none => none
  | some dflt => some ((dictGet thr label_value).getD dflt)

/-! ### DefaultClassifier._calculate_loss (model.py lines 489-502). -/

/-- The observable outcome of _calculate_loss: the early return of a zero
loss with its effective count, or the targets handed to the loss function
together with the returned count.  The numeric loss value itself is computed
by the external torch loss module and is not part of any claim. -/
inductive CalcLoss
  | earlyReturn (loss : ℚ) (count : Nat)
  | multiTargets (targets : List (List Nat)) (count : Nat)
  | singleTargets (targets : List Nat) (count : Nat)
deriving DecidableEq

/-- The single-label per-point loss target of _calculate_loss (model.py
lines 498-500): index of the first gold label, or of O when the point has
none. -/
def singleTarget (d : Dictionary) : List String → Nat
  | [] => d.get_idx_for_item "O"
  | l :: _ => d.get_idx_for_item l

/-- _calculate_loss on the per-point gold label lists: `not any(labels)`
holds exactly when every list is empty (the empty batch included), giving
the early return of loss 0 with count 1; otherwise multi-label mode builds
per-point multi-hot targets over the dictionary and single-label mode builds
the per-point singleTarget index, and the returned count is the number of
points. -/
def calculate_loss (d : Dictionary) (multi_label : Bool) (labels : List (List String)) : CalcLoss :=
  if labels.all (fun ls => ls.isEmpty) then CalcLoss.earlyReturn 0 1
  else if multi_label then
    CalcLoss.multiTargets
      (labels.map (fun ls => d.items.map (fun l => if l ∈ ls then 1 else 0)))
      labels.length
  else
    CalcLoss.singleTargets (labels.map (singleTarget d)) labels.length

/-! ### DefaultClassifier.predict, label materialization
(model.py lines 576-608).  The forward pass and sigmoid/softmax are external;
the materialization is embedded per data point on its row of post-sigmoid
(respectively post-softmax) scores. -/

/-- One iteration of the multi-label inner loop over class indices
(model.py lines 582-589): look up the class value at the index (none embeds
the IndexError), skip the O class, read the threshold (none embeds the
KeyError of a configuration without default), and append the
(value, sigmoid score) label when the score strictly exceeds the threshold
or all-class probabilities were requested. -/
def mlStep (d : Dictionary) (thr : List (String × ℚ)) (returnAll : Bool) (row : List ℚ)
    (labels : List (String × ℚ)) (l_idx : Nat) : Option (List (String × ℚ)) :=
  match d.get_item_for_index l_idx with
  | none => none
  | some label_value =>
    if label_value = "O" then some labels
    else
      match get_label_threshold thr label_value with
      | none => none
      | some label_threshold =>
        if row.getD l_idx 0 > label_threshold ∨ returnAll = true then
          some (labels ++ [(label_value, row.getD l_idx 0)])
        else some labels

/-- The labels attached to one data point in multi-label mode, as the loop
over all class indices of its sigmoid-score row (model.py lines 578-589). -/
def multiLabelPredictPoint (d : Dictionary) (thr : List (String × ℚ)) (returnAll : Bool)
    (row : List ℚ) : Option (List (String × ℚ)) :=
  (List.range row.length).foldlM (mlStep d thr returnAll row) []

/-- The tail recursion of torch.max over one score row: running maximum and
its index, a later element replacing the current maximum only when strictly
greater, so the first maximal index is kept. -/
def torchMaxGo (c : ℚ) (ci : Nat) (j : Nat) : List ℚ → ℚ × Nat
  | [] => (c, ci)
  | y :: ys => if y > c then torchMaxGo y j (j + 1) ys else torchMaxGo c ci (j + 1) ys

/-- torch.max over one softmax row: the maximum value and the first index
attaining it; none embeds the failure on an empty row. -/
def torchMaxRow : List ℚ → Option (ℚ × Nat)
  | [] => none
  | x :: xs => some (torchMaxGo x 0 1 xs)

/-- The labels attached to one data point in single-label mode without
all-class probabilities (model.py lines 602-608): the argmax class of the
softmax row with its probability, or no label at all when the argmax class
is O. -/
def singleLabelPredictPoint (d : Dictionary) (row : List ℚ) : Option (List (String × ℚ)) :=
  match torchMaxRow row with
  | none => none
  | some (c, i) =>
    match d.get_item_for_index i with
    | none => none
    | some label_value =>
      if label_value = "O" then some [] else some [(label_value, c)]

/-! ### Model.save, model-card handling (model.py lines 77-113). -/

/-- A value stored in the training-parameters mapping of a model card: a
live object (optimizer or scheduler among them), a class object
(v.__class__), a state-dict snapshot (v.state_dict()), or plain data. -/
inductive PVal
  | obj (id : Nat)
  | classOf (v : PVal)
  | stateOf (v : PVal)
  | str (s : String)
deriving DecidableEq

/-- The optimizer snapshot phase of save (model.py lines 94-97): when the
mapping holds an optimizer, write its state dict under
optimizer_state_dict, replace the optimizer entry by its class, and keep
the live reference aside for restoration. -/
def saveOptPhase (tp : List (String × PVal)) : Option PVal × List (String × PVal) :=
  match dictGet tp "optimizer" with
  | some o =>
    (some o, dictSet (dictSet tp "optimizer_state_dict" (PVal.stateOf o)) "optimizer" (PVal.classOf o))
  | none => (none, tp)

/-- The scheduler snapshot phase of save (model.py lines 99-102). -/
def saveSchedPhase (tp : List (String × PVal)) : Option PVal × List (String × PVal) :=
  match dictGet tp "scheduler" with
  | some s =>
    (some s, dictSet (dictSet tp "scheduler_state_dict" (PVal.stateOf s)) "scheduler" (PVal.classOf s))
  | none => (none, tp)

/-- Restoration of the live optimizer reference after the torch.save call
(model.py lines 110-111). -/
def restoreOpt (o : Option PVal) (tp : List (String × PVal)) : List (String × PVal) :=
  match o with
  | some o => dictSet tp "optimizer" o
  | none => tp

/-- Restoration of the live scheduler reference (model.py lines 112-113). -/
def restoreSched (s : Option PVal) (tp : List (String × PVal)) : List (String × PVal) :=
  match s with
  | some s => dictSet tp "scheduler" s
  | none => tp

/-- The full effect of Model.save on the training-parameters mapping of the
model card: snapshot optimizer, snapshot scheduler, then restore the live
references kept aside. -/
def save_tp (tp : List (String × PVal)) : List (String × PVal) :=
  let p1 := saveOptPhase tp
  let p2 := saveSchedPhase p1.2
  restoreSched p2.1 (restoreOpt p1.1 p2.2)

/-! ### Helper lemmas. -/

lemma dictGet_dictSet {α : Type} (m : List (String × α)) (k k' : String) (v : α) :
    dictGet (dictSet m k v) k' = if k = k' then some v else dictGet m k' := by
  induction m with
  | nil => simp [dictSet, dictGet]
  | cons p rest ih =>
    by_cases hp : p.1 = k
    · by_cases hk : k = k'
      · simp [dictSet, dictGet, hp, hk]
      · have hpk : ¬ p.1 = k' := by rw [hp]; exact hk
        simp [dictSet, dictGet, hp, hk, hpk]
    · by_cases hpk : p.1 = k'
      · have hk : ¬ k = k' := by rw [← hpk]; intro hc; exact hp hc.symm
        have hk' : ¬ k' = k := fun hc => hk hc.symm
        simp [dictSet, dictGet, hp, hpk, hk, hk']
      · simp [dictSet, dictGet, hp, hpk, ih]

lemma setter_keeps_default (arg : ThresholdValue) (r : List (String × ℚ))
    (h : set_multi_label_threshold arg = some r) : (dictGet r "default").isSome := by
  cases arg with
  | scalar x =>
    simp [set_multi_label_threshold] at h
    subst h
    simp [dictGet]
  | dict m =>
    by_cases hm : (dictGet m "default").isSome
    · simp [set_multi_label_threshold, hm] at h
      subst h
      exact hm
    · simp [set_multi_label_threshold, hm] at h

/-! ### Claim theorems. -/

/-- C4: for every dict lacking a "default" key, assigning it as the
multi-label threshold configuration (the constructor assigns through the
same setter) raises immediately at configuration time: the setter yields
none, never a silently defaulted configuration. -/
theorem threshold_dict_without_default_raises (m : List (String × ℚ))
    (h : dictGet m "default" = none) :
    set_multi_label_threshold (ThresholdValue.dict m) = none := by
  simp [set_multi_label_threshold, h]

theorem threshold_dict_without_default_raises_witness :
    dictGet [("LOC", (4 : ℚ)/5)] "default" = none ∧
    set_multi_label_threshold (ThresholdValue.dict [("LOC", (4 : ℚ)/5)]) = none :=
  ⟨by decide, threshold_dict_without_default_raises _ (by decide)⟩

/-- C10: setting the multi-label threshold to any non-dict value x never
raises and stores the mapping with x under "default"; every configuration
the setter accepts holds a "default" entry, and _get_label_threshold
returns a threshold for every label value of every accepted
configuration. -/
theorem threshold_setter_nondict_total :
    (∀ x : ℚ, set_multi_label_threshold (ThresholdValue.scalar x) = some [("default", x)]) ∧
    (∀ arg r, set_multi_label_threshold arg = some r → (dictGet r "default").isSome) ∧
    (∀ arg r v, set_multi_label_threshold arg = some r → (get_label_threshold r v).isSome) := by
  refine ⟨fun x => rfl, setter_keeps_default, fun arg r v h => ?_⟩
  have hd := setter_keeps_default arg r h
  rw [Option.isSome_iff_exists] at hd
  obtain ⟨dflt, hdflt⟩ := hd
  simp [get_label_threshold, hdflt]

theorem threshold_setter_nondict_total_witness :
    set_multi_label_threshold (ThresholdValue.scalar ((1 : ℚ)/2)) = some [("default", (1 : ℚ)/2)] ∧
    (dictGet [("default", (1 : ℚ)/2), ("LOC", (4 : ℚ)/5)] "default").isSome ∧
    (get_label_threshold [("default", (1 : ℚ)/2), ("LOC", (4 : ℚ)/5)] "PER").isSome :=
  ⟨threshold_setter_nondict_total.1 _,
   threshold_setter_nondict_total.2.1
     (ThresholdValue.dict [("default", (1 : ℚ)/2), ("LOC", (4 : ℚ)/5)]) _ rfl,
   threshold_setter_nondict_total.2.2
     (ThresholdValue.dict [("default", (1 : ℚ)/2), ("LOC", (4 : ℚ)/5)]) _ "PER" rfl⟩

/-- C1: refuted on the code as written; evidence for the code_bug verdict.
A call observing exactly one gold occurrence and no predictions has
len(all_true_values) + len(all_predicted_values) = 1, which fails the
strict `> 1` guard, so the all-zero fallback branch IS taken even though at
least one occurrence exists (the code's own comment reads "there is at
least one gold label or one prediction"). -/
theorem evaluate_single_occurrence_takes_zero_fallback :
    totalOccurrences (aggregate "gold" none [⟨[("gold", ⟨"0", "PER", 1⟩)]⟩]) = 1 ∧
    evalScores ⟨1, 1, 1, 1, 1, 1, "report", []⟩
      (aggregate "gold" none [⟨[("gold", ⟨"0", "PER", 1⟩)]⟩]) = zeroScores := by
  constructor <;> decide

/-- C7: _calculate_loss returns loss 0 with effective count 1 whenever no
point of the batch has any gold label; otherwise in single-label mode each
point's target is the dictionary index of its first gold label (or of "O"
when the point has none) and the returned count is the number of points. -/
theorem calculate_loss_spec (d : Dictionary) :
    (∀ ml labels, (∀ ls ∈ labels, ls = ([] : List String)) →
      calculate_loss d ml labels = CalcLoss.earlyReturn 0 1) ∧
    (∀ labels, ¬ (∀ ls ∈ labels, ls = ([] : List String)) →
      ∃ ts, calculate_loss d false labels = CalcLoss.singleTargets ts labels.length ∧
        ts.length = labels.length ∧
        ∀ i ls, labels.get? i = some ls → ts.get? i = some (singleTarget d ls)) := by
  constructor
  · intro ml labels h
    have hall : labels.all (fun ls => ls.isEmpty) = true := by
      rw [List.all_eq_true]
      intro ls hls
      simp [h ls hls]
    simp [calculate_loss, hall]
  · intro labels h
    have hall : ¬ labels.all (fun ls => ls.isEmpty) = true := by
      rw [List.all_eq_true]
      intro hc
      refine h (fun ls hls => ?_)
      have := hc ls hls
      simpa [List.isEmpty_iff] using this
    refine ⟨labels.map (singleTarget d), ?_, by simp, ?_⟩
    · simp [calculate_loss, hall]
    · intro i ls hget
      rw [List.get?_eq_getElem?] at hget
      simp [List.get?_eq_getElem?, hget]

theorem calculate_loss_spec_witness :
    calculate_loss ⟨["O", "PER"]⟩ false [] = CalcLoss.earlyReturn 0 1 ∧
    ∃ ts, calculate_loss ⟨["O", "PER"]⟩ false [["PER"], []] =
        CalcLoss.singleTargets ts ([["PER"], ([] : List String)] : List (List String)).length ∧
      ts.length = ([["PER"], ([] : List String)] : List (List String)).length ∧
      ∀ i ls, ([["PER"], ([] : List String)] : List (List String)).get? i = some ls →
        ts.get? i = some (singleTarget ⟨["O", "PER"]⟩ ls) :=
  ⟨(calculate_loss_spec ⟨["O", "PER"]⟩).1 false [] (by simp),
   (calculate_loss_spec ⟨["O", "PER"]⟩).2 [["PER"], []] (by decide)⟩

/-- C8, counterexample: Model.save does not leave the training-parameters
mapping exactly as it was; saving a model card whose training parameters
hold only a live optimizer leaves an extra optimizer_state_dict entry
behind, so the mapping after save differs from the one before. -/
theorem save_training_parameters_changed :
    save_tp [("optimizer", PVal.obj 0)] ≠ [("optimizer", PVal.obj 0)] := by
  decide

/-- C8, amended: after Model.save returns, the live optimizer and scheduler
references are restored under their keys and every entry under another key
is unchanged, except that optimizer_state_dict and scheduler_state_dict now
hold the snapshotted state of the live objects (added, or overwritten if
already present) whenever the corresponding live object was in the
mapping. -/
theorem save_training_parameters_effect (tp : List (String × PVal)) :
    (∀ o, dictGet tp "optimizer" = some o →
      dictGet (save_tp tp) "optimizer" = some o ∧
      dictGet (save_tp tp) "optimizer_state_dict" = some (PVal.stateOf o)) ∧
    (∀ s, dictGet tp "scheduler" = some s →
      dictGet (save_tp tp) "scheduler" = some s ∧
      dictGet (save_tp tp) "scheduler_state_dict" = some (PVal.stateOf s)) ∧
    (∀ k, k ≠ "optimizer" → k ≠ "scheduler" →
      k ≠ "optimizer_state_dict" → k ≠ "scheduler_state_dict" →
      dictGet (save_tp tp) k = dictGet tp k) := by
  rcases hopt : dictGet tp "optimizer" with _ | o <;>
    rcases hsched : dictGet tp "scheduler" with _ | s
  · refine ⟨fun o ho => Option.noConfusion ho, fun s hs => Option.noConfusion hs,
      fun k h1 h2 h3 h4 => ?_⟩
    simp [save_tp, saveOptPhase, saveSchedPhase, restoreOpt, restoreSched, hopt, hsched]
  · refine ⟨fun o ho => Option.noConfusion ho, fun s2 hs => ?_, fun k h1 h2 h3 h4 => ?_⟩
    · obtain rfl : s = s2 := Option.some.inj hs
      simp [save_tp, saveOptPhase, saveSchedPhase, restoreOpt, restoreSched, hopt, hsched,
        dictGet_dictSet]
    · simp [save_tp, saveOptPhase, saveSchedPhase, restoreOpt, restoreSched, hopt, hsched,
        dictGet_dictSet, Ne.symm h2, Ne.symm h4]
  · refine ⟨fun o2 ho => ?_, fun s hs => Option.noConfusion hs, fun k h1 h2 h3 h4 => ?_⟩
    · obtain rfl : o = o2 := Option.some.inj ho
      simp [save_tp, saveOptPhase, saveSchedPhase, restoreOpt, restoreSched, hopt, hsched,
        dictGet_dictSet]
    · simp [save_tp, saveOptPhase, saveSchedPhase, restoreOpt, restoreSched, hopt, hsched,
        dictGet_dictSet, Ne.symm h1, Ne.symm h3]
  · refine ⟨fun o2 ho => ?_, fun s2 hs => ?_, fun k h1 h2 h3 h4 => ?_⟩
    · obtain rfl : o = o2 := Option.some.inj ho
      simp [save_tp, saveOptPhase, saveSchedPhase, restoreOpt, restoreSched, hopt, hsched,
        dictGet_dictSet]
    · obtain rfl : s = s2 := Option.some.inj hs
      simp [save_tp, saveOptPhase, saveSchedPhase, restoreOpt, restoreSched, hopt, hsched,
        dictGet_dictSet]
    · simp [save_tp, saveOptPhase, saveSchedPhase, restoreOpt, restoreSched, hopt, hsched,
        dictGet_dictSet, Ne.symm h1, Ne.symm h2, Ne.symm h3, Ne.symm h4]

theorem save_training_parameters_effect_witness :
    dictGet (save_tp [("optimizer", PVal.obj 1), ("scheduler", PVal.obj 2),
        ("lr", PVal.str "0.1")]) "optimizer" = some (PVal.obj 1) ∧
    dictGet (save_tp [("optimizer", PVal.obj 1), ("scheduler", PVal.obj 2),
        ("lr", PVal.str "0.1")]) "optimizer_state_dict" = some (PVal.stateOf (PVal.obj 1)) ∧
    dictGet (save_tp [("optimizer", PVal.obj 1), ("scheduler", PVal.obj 2),
        ("lr", PVal.str "0.1")]) "scheduler" = some (PVal.obj 2) ∧
    dictGet (save_tp [("optimizer", PVal.obj 1), ("scheduler", PVal.obj 2),
        ("lr", PVal.str "0.1")]) "lr" =
      dictGet [("optimizer", PVal.obj 1), ("scheduler", PVal.obj 2),
        ("lr", PVal.str "0.1")] "lr" :=
  ⟨((save_training_parameters_effect _).1 _ (by decide)).1,
   ((save_training_parameters_effect _).1 _ (by decide)).2,
   ((save_training_parameters_effect _).2.1 _ (by decide)).1,
   (save_training_parameters_effect _).2.2 "lr" (by decide) (by decide) (by decide) (by decide)⟩

lemma processPoint_no_labels (goldType : String) (gd : Option (String → Nat))
    (st : EvalAgg × Nat) (dp : DataPoint)
    (hg : dp.get_labels goldType = []) (hp : dp.get_labels "predicted" = []) :
    processPoint goldType gd st dp = (st.1, st.2 + 1) := by
  simp [processPoint, processGold, processPred, hg, hp]

lemma foldl_processPoint_no_labels (goldType : String) (gd : Option (String → Nat))
    (dps : List DataPoint)
    (h : ∀ dp ∈ dps, dp.get_labels goldType = [] ∧ dp.get_labels "predicted" = []) :
    ∀ st : EvalAgg × Nat, (dps.foldl (processPoint goldType gd) st).1 = st.1 := by
  induction dps with
  | nil => intro st; rfl
  | cons dp rest ih =>
    intro st
    rw [List.foldl_cons]
    have hdp := h dp (List.mem_cons_self dp rest)
    rw [ih (fun x hx => h x (List.mem_cons_of_mem dp hx)) _,
      processPoint_no_labels goldType gd st dp hdp.1 hdp.2]

/-- C5: an evaluation call observing zero gold labels and zero predicted
labels in total returns the all-zero scores with the empty classification
report, whatever the external metric library would have computed; the
embedding is total, so no exception arises (the warning log line is outside
the embedding). -/
theorem evaluate_no_labels_all_zero (computed : ScoresResult) (goldType : String)
    (gd : Option (String → Nat)) (dps : List DataPoint)
    (h : ∀ dp ∈ dps, dp.get_labels goldType = [] ∧ dp.get_labels "predicted" = []) :
    evalScores computed (aggregate goldType gd dps) = zeroScores := by
  have hagg : aggregate goldType gd dps = emptyAgg := by
    unfold aggregate
    rw [foldl_processPoint_no_labels goldType gd dps h (emptyAgg, 0)]
  rw [hagg]
  simp [evalScores, emptyAgg]

theorem evaluate_no_labels_all_zero_witness :
    evalScores ⟨1, 1, 1, 1, 1, 1, "r", []⟩ (aggregate "gold" none [⟨[]⟩]) = zeroScores :=
  evaluate_no_labels_all_zero ⟨1, 1, 1, 1, 1, 1, "r", []⟩ "gold" none [⟨[]⟩] (by decide)

/-- C9: a composite key of all_spans with no entry on one side is scored
against the implicit value list O on that side, and a data point with zero
gold and zero predicted labels leaves the aggregation state untouched (only
the running sentence id advances), so it contributes no row at all: in
particular nothing to the precision or recall denominator of any real
class. -/
theorem span_missing_side_scores_O :
    (∀ (agg : EvalAgg) (d : Dictionary) (i : Nat) (span : String),
      agg.all_spans.get? i = some span →
      ((dictGet agg.all_true_values span = none →
        ∃ p, (spanRows agg d).get? i = some p ∧ p.1 = multiHot d ["O"]) ∧
       (dictGet agg.all_predicted_values span = none →
        ∃ p, (spanRows agg d).get? i = some p ∧ p.2 = multiHot d ["O"]))) ∧
    (∀ (goldType : String) (gd : Option (String → Nat)) (st : EvalAgg × Nat) (dp : DataPoint),
      dp.get_labels goldType = [] → dp.get_labels "predicted" = [] →
      processPoint goldType gd st dp = (st.1, st.2 + 1)) := by
  constructor
  · intro agg d i span hspan
    rw [List.get?_eq_getElem?] at hspan
    constructor
    · intro hmiss
      refine ⟨(multiHot d ((dictGet agg.all_true_values span).getD ["O"]),
          multiHot d ((dictGet agg.all_predicted_values span).getD ["O"])), ?_, ?_⟩
      · rw [spanRows, List.get?_eq_getElem?, List.getElem?_map, hspan]
        rfl
      · simp [hmiss]
    · intro hmiss
      refine ⟨(multiHot d ((dictGet agg.all_true_values span).getD ["O"]),
          multiHot d ((dictGet agg.all_predicted_values span).getD ["O"])), ?_, ?_⟩
      · rw [spanRows, List.get?_eq_getElem?, List.getElem?_map, hspan]
        rfl
      · simp [hmiss]
  · exact fun goldType gd st dp hg hp => processPoint_no_labels goldType gd st dp hg hp

theorem span_missing_side_scores_O_witness :
    (∃ p, (spanRows ⟨["0: x"], [], [("0: x", ["PER"])]⟩ ⟨["O", "PER"]⟩).get? 0 = some p ∧
      p.1 = multiHot ⟨["O", "PER"]⟩ ["O"]) ∧
    processPoint "gold" none (⟨["0: x"], [], [("0: x", ["PER"])]⟩, 5) ⟨[]⟩ =
      (⟨["0: x"], [], [("0: x", ["PER"])]⟩, 6) :=
  ⟨(span_missing_side_scores_O.1 ⟨["0: x"], [], [("0: x", ["PER"])]⟩ ⟨["O", "PER"]⟩ 0 "0: x"
      (by decide)).1 (by decide),
   span_missing_side_scores_O.2 "gold" none (⟨["0: x"], [], [("0: x", ["PER"])]⟩, 5) ⟨[]⟩
     (by decide) (by decide)⟩

/-- C6: during aggregation with a gold label dictionary supplied, a gold
label whose value maps to the unknown sentinel index 0 is recorded under
its composite key as the placeholder, while a predicted label with the very
same value is recorded unchanged: the substitution applies on the gold side
only. -/
theorem gold_unk_substitution_asymmetry (gd : String → Nat) (goldType id0 v : String)
    (s : ℚ) (sid : Nat) (h0 : gd v = 0) (hgt : goldType ≠ "predicted") :
    ((processPoint goldType (some gd) (emptyAgg, sid)
        ⟨[(goldType, ⟨id0, v, s⟩), ("predicted", ⟨id0, v, s⟩)]⟩).1.all_true_values =
      [(toString sid ++ ": " ++ id0, ["<unk>"])]) ∧
    ((processPoint goldType (some gd) (emptyAgg, sid)
        ⟨[(goldType, ⟨id0, v, s⟩), ("predicted", ⟨id0, v, s⟩)]⟩).1.all_predicted_values =
      [(toString sid ++ ": " ++ id0, [v])]) := by
  have hg : DataPoint.get_labels ⟨[(goldType, ⟨id0, v, s⟩), ("predicted", ⟨id0, v, s⟩)]⟩
      goldType = [⟨id0, v, s⟩] := by
    simp [DataPoint.get_labels, Ne.symm hgt]
  have hp : DataPoint.get_labels ⟨[(goldType, ⟨id0, v, s⟩), ("predicted", ⟨id0, v, s⟩)]⟩
      "predicted" = [⟨id0, v, s⟩] := by
    simp [DataPoint.get_labels, hgt]
  constructor <;>
    simp [processPoint, processGold, processPred, hg, hp, recordValue, addSpan,
      goldRecordedValue, h0, emptyAgg]

theorem gold_unk_substitution_asymmetry_witness :
    ((processPoint "gold" (some (fun _ => 0)) (emptyAgg, 0)
        ⟨[("gold", ⟨"x", "PER", 1⟩), ("predicted", ⟨"x", "PER", 1⟩)]⟩).1.all_true_values =
      [(toString (0 : Nat) ++ ": " ++ "x", ["<unk>"])]) ∧
    ((processPoint "gold" (some (fun _ => 0)) (emptyAgg, 0)
        ⟨[("gold", ⟨"x", "PER", 1⟩), ("predicted", ⟨"x", "PER", 1⟩)]⟩).1.all_predicted_values =
      [(toString (0 : Nat) ++ ": " ++ "x", ["PER"])]) :=
  gold_unk_substitution_asymmetry (fun _ => 0) "gold" "x" "PER" 1 0 rfl (by decide)

lemma torchMaxGo_le (ys : List ℚ) : ∀ (c : ℚ) (ci j : Nat),
    c ≤ (torchMaxGo c ci j ys).1 ∧ ∀ y ∈ ys, y ≤ (torchMaxGo c ci j ys).1 := by
  induction ys with
  | nil =>
    intro c ci j
    exact ⟨le_refl c, by simp⟩
  | cons y ys ih =>
    intro c ci j
    by_cases h : y > c
    · simp only [torchMaxGo, if_pos h]
      obtain ⟨h1, h2⟩ := ih y j (j + 1)
      refine ⟨le_trans h.le h1, fun z hz => ?_⟩
      rcases List.mem_cons.mp hz with rfl | hz'
      · exact h1
      · exact h2 z hz'
    · simp only [torchMaxGo, if_neg h]
      obtain ⟨h1, h2⟩ := ih c ci (j + 1)
      refine ⟨h1, fun z hz => ?_⟩
      rcases List.mem_cons.mp hz with rfl | hz'
      · exact le_trans (le_of_not_lt h) h1
      · exact h2 z hz'

lemma torchMaxGo_attains (ys : List ℚ) : ∀ (c : ℚ) (ci j : Nat),
    ((torchMaxGo c ci j ys).1 = c ∧ (torchMaxGo c ci j ys).2 = ci) ∨
    ∃ k, ∃ hk : k < ys.length, (torchMaxGo c ci j ys).2 = j + k ∧
      ys.get ⟨k, hk⟩ = (torchMaxGo c ci j ys).1 := by
  induction ys with
  | nil =>
    intro c ci j
    left
    exact ⟨rfl, rfl⟩
  | cons y ys ih =>
    intro c ci j
    by_cases h : y > c
    · right
      simp only [torchMaxGo, if_pos h]
      rcases ih y j (j + 1) with ⟨h1, h2⟩ | ⟨k, hk, h1, h2⟩
      · refine ⟨0, by simp, ?_, ?_⟩
        · rw [h2]; omega
        · simpa using h1.symm
      · refine ⟨k + 1, by simpa using Nat.succ_lt_succ hk, ?_, ?_⟩
        · rw [h1]; omega
        · simpa using h2
    · simp only [torchMaxGo, if_neg h]
      rcases ih c ci (j + 1) with ⟨h1, h2⟩ | ⟨k, hk, h1, h2⟩
      · left
        exact ⟨h1, h2⟩
      · right
        refine ⟨k + 1, by simpa using Nat.succ_lt_succ hk, ?_, ?_⟩
        · rw [h1]; omega
        · simpa using h2

lemma torchMaxRow_spec (row : List ℚ) (c : ℚ) (i : Nat)
    (h : torchMaxRow row = some (c, i)) :
    ∃ hi : i < row.length, row.get ⟨i, hi⟩ = c ∧
      ∀ j (hj : j < row.length), row.get ⟨j, hj⟩ ≤ c := by
  cases row with
  | nil => simp [torchMaxRow] at h
  | cons x xs =>
    rw [torchMaxRow] at h
    have hgo : torchMaxGo x 0 1 xs = (c, i) := Option.some.inj h
    obtain ⟨hle, hmem⟩ := torchMaxGo_le xs x 0 1
    rw [hgo] at hle hmem
    rcases torchMaxGo_attains xs x 0 1 with ⟨h1, h2⟩ | ⟨k, hk, h1, h2⟩
    · rw [hgo] at h1 h2
      simp only at h1 h2
      subst h2
      subst h1
      refine ⟨by simp, by simp, fun j hj => ?_⟩
      cases j with
      | zero => simp
      | succ j =>
        have hj' : j < xs.length := by simpa using hj
        simpa using hmem (xs.get ⟨j, hj'⟩) (xs.get_mem j hj')
    · rw [hgo] at h1 h2
      simp only at h1 h2
      subst h1
      have hi : 1 + k < (x :: xs).length := by simp; omega
      refine ⟨hi, ?_, fun j hj => ?_⟩
      · have : (1 : Nat) + k = k + 1 := by omega
        simp only [this] at hi ⊢
        simpa using h2
      · cases j with
        | zero => simpa using hle
        | succ j =>
          have hj' : j < xs.length := by simpa using hj
          simpa using hmem (xs.get ⟨j, hj'⟩) (xs.get_mem j hj')

/-- C3: in single-label mode without all-class probabilities, a data point
receives exactly one label, carrying the argmax class of its softmax row
and that class's probability, unless the argmax class is O, in which case
no label at all is attached; the argmax index attains the row maximum. -/
theorem single_label_argmax_attachment (d : Dictionary) (row : List ℚ) (c : ℚ) (i : Nat)
    (v : String) (hmax : torchMaxRow row = some (c, i))
    (hv : d.get_item_for_index i = some v) :
    singleLabelPredictPoint d row = some (if v = "O" then [] else [(v, c)]) ∧
    ∃ hi : i < row.length, row.get ⟨i, hi⟩ = c ∧
      ∀ j (hj : j < row.length), row.get ⟨j, hj⟩ ≤ c := by
  constructor
  · by_cases hO : v = "O" <;> simp [singleLabelPredictPoint, hmax, hv, hO]
  · exact torchMaxRow_spec row c i hmax

theorem single_label_argmax_attachment_witness :
    singleLabelPredictPoint ⟨["O", "PER", "LOC"]⟩ [(1:ℚ)/6, (1:ℚ)/2, (1:ℚ)/3] =
      some (if "PER" = "O" then [] else [("PER", (1:ℚ)/2)]) ∧
    ∃ hi : 1 < [(1:ℚ)/6, (1:ℚ)/2, (1:ℚ)/3].length,
      [(1:ℚ)/6, (1:ℚ)/2, (1:ℚ)/3].get ⟨1, hi⟩ = (1:ℚ)/2 ∧
      ∀ j (hj : j < [(1:ℚ)/6, (1:ℚ)/2, (1:ℚ)/3].length),
        [(1:ℚ)/6, (1:ℚ)/2, (1:ℚ)/3].get ⟨j, hj⟩ ≤ (1:ℚ)/2 := by
  have hmax : torchMaxRow [(1:ℚ)/6, (1:ℚ)/2, (1:ℚ)/3] = some ((1:ℚ)/2, 1) := by
    norm_num [torchMaxRow, torchMaxGo]
  exact single_label_argmax_attachment ⟨["O", "PER", "LOC"]⟩ _ _ _ "PER" hmax rfl

lemma mlFold_char (d : Dictionary) (thr : List (String × ℚ)) (ra : Bool) (row : List ℚ)
    (dflt : ℚ) (hdef : dictGet thr "default" = some dflt)
    (hlen : row.length = d.items.length) :
    ∀ n, n ≤ row.length →
      ∃ L, (List.range n).foldlM (mlStep d thr ra row) ([] : List (String × ℚ)) = some L ∧
        ∀ v q, (v, q) ∈ L ↔ ∃ i, i < n ∧ d.items.get? i = some v ∧ v ≠ "O" ∧
          q = row.getD i 0 ∧ (row.getD i 0 > (dictGet thr v).getD dflt ∨ ra = true) := by
  intro n
  induction n with
  | zero =>
    intro _
    exact ⟨[], by simp, fun v q => by simp⟩
  | succ n ih =>
    intro hn
    obtain ⟨L, hfold, hmem⟩ := ih (Nat.le_of_succ_le hn)
    have hlt : n < row.length := hn
    have hdict : n < d.items.length := by omega
    have hv0 : d.get_item_for_index n = some (d.items.get ⟨n, hdict⟩) := by
      simp [Dictionary.get_item_for_index, List.get?_eq_get hdict]
    have hstep : (List.range (n + 1)).foldlM (mlStep d thr ra row) ([] : List (String × ℚ)) =
        mlStep d thr ra row L n := by
      rw [List.range_succ, List.foldlM_append, hfold]
      simp
    by_cases hO : d.items.get ⟨n, hdict⟩ = "O"
    · refine ⟨L, ?_, ?_⟩
      · rw [hstep]
        have hO2 := hO
        simp only [List.get_eq_getElem] at hO2
        simp [mlStep, hv0, hO2]
      · intro v q
        rw [hmem v q]
        constructor
        · rintro ⟨i, hi, h2, h3, h4, h5⟩
          exact ⟨i, Nat.lt_succ_of_lt hi, h2, h3, h4, h5⟩
        · rintro ⟨i, hi, h2, h3, h4, h5⟩
          rcases Nat.lt_succ_iff_lt_or_eq.mp hi with hi2 | rfl
          · exact ⟨i, hi2, h2, h3, h4, h5⟩
          · rw [List.get?_eq_get hdict] at h2
            obtain rfl := Option.some.inj h2
            exact absurd hO h3
    · have hthr : get_label_threshold thr (d.items.get ⟨n, hdict⟩) =
          some ((dictGet thr (d.items.get ⟨n, hdict⟩)).getD dflt) := by
        simp [get_label_threshold, hdef]
      by_cases hcond :
          row.getD n 0 > (dictGet thr (d.items.get ⟨n, hdict⟩)).getD dflt ∨ ra = true
      · refine ⟨L ++ [(d.items.get ⟨n, hdict⟩, row.getD n 0)], ?_, ?_⟩
        · rw [hstep]
          have hO2 := hO
          have hthr2 := hthr
          have hcond2 := hcond
          simp only [List.get_eq_getElem] at hO2 hthr2 hcond2
          simp only [List.getD_eq_getElem?_getD] at hcond2
          simp [mlStep, hv0, hO2, hthr2, hcond2]
        · intro v q
          rw [List.mem_append]
          constructor
          · rintro (hL | hx)
            · obtain ⟨i, hi, h2, h3, h4, h5⟩ := (hmem v q).mp hL
              exact ⟨i, Nat.lt_succ_of_lt hi, h2, h3, h4, h5⟩
            · have hx2 : v = d.items.get ⟨n, hdict⟩ ∧ q = row.getD n 0 := by
                simpa [Prod.ext_iff] using hx
              obtain ⟨rfl, rfl⟩ := hx2
              exact ⟨n, Nat.lt_succ_self n, by rw [List.get?_eq_get hdict], hO, rfl, hcond⟩
          · rintro ⟨i, hi, h2, h3, h4, h5⟩
            rcases Nat.lt_succ_iff_lt_or_eq.mp hi with hi2 | rfl
            · exact Or.inl ((hmem v q).mpr ⟨i, hi2, h2, h3, h4, h5⟩)
            · rw [List.get?_eq_get hdict] at h2
              obtain rfl := Option.some.inj h2
              subst h4
              exact Or.inr (by simp)
      · refine ⟨L, ?_, ?_⟩
        · rw [hstep]
          have hO2 := hO
          have hthr2 := hthr
          have hcond2 := hcond
          simp only [List.get_eq_getElem] at hO2 hthr2 hcond2
          simp only [List.getD_eq_getElem?_getD] at hcond2
          simp [mlStep, hv0, hO2, hthr2, hcond2]
        · intro v q
          rw [hmem v q]
          constructor
          · rintro ⟨i, hi, h2, h3, h4, h5⟩
            exact ⟨i, Nat.lt_succ_of_lt hi, h2, h3, h4, h5⟩
          · rintro ⟨i, hi, h2, h3, h4, h5⟩
            rcases Nat.lt_succ_iff_lt_or_eq.mp hi with hi2 | rfl
            · exact ⟨i, hi2, h2, h3, h4, h5⟩
            · rw [List.get?_eq_get hdict] at h2
              obtain rfl := Option.some.inj h2
              exact absurd h5 hcond

/-- C2: in multi-label mode on a batch with label candidates, for every
point and every non-O class with a unique-entry dictionary, a label
carrying the sigmoid score is attached exactly when the sigmoid score
strictly exceeds the class threshold (its override when present, otherwise
the default) or all-class probabilities were requested; in particular with
thresholds default 1/2 and LOC 4/5 and sigmoid scores PER 3/5 and LOC 7/10,
only the PER label is attached. -/
theorem multi_label_attach_iff_threshold :
    (∀ (d : Dictionary) (thr : List (String × ℚ)) (dflt : ℚ) (ra : Bool) (row : List ℚ),
      d.items.Nodup → dictGet thr "default" = some dflt → row.length = d.items.length →
      ∃ L, multiLabelPredictPoint d thr ra row = some L ∧
        ∀ i v, d.items.get? i = some v → v ≠ "O" →
          ((v, row.getD i 0) ∈ L ↔
            (row.getD i 0 > (dictGet thr v).getD dflt ∨ ra = true))) ∧
    multiLabelPredictPoint ⟨["O", "PER", "LOC"]⟩ [("default", (1:ℚ)/2), ("LOC", (4:ℚ)/5)]
      false [(9:ℚ)/10, (3:ℚ)/5, (7:ℚ)/10] = some [("PER", (3:ℚ)/5)] := by
  constructor
  · intro d thr dflt ra row hnd hdef hlen
    obtain ⟨L, hfold, hmem⟩ := mlFold_char d thr ra row dflt hdef hlen row.length le_rfl
    refine ⟨L, hfold, ?_⟩
    intro i v hget hO
    have hi : i < d.items.length := by
      by_contra hc
      rw [List.get?_eq_none.mpr (le_of_not_lt hc)] at hget
      cases hget
    have hirow : i < row.length := by omega
    constructor
    · intro hmemL
      obtain ⟨j, hj, h2, h3, h4, h5⟩ := (hmem v (row.getD i 0)).mp hmemL
      have hij : i = j := by
        apply List.getElem?_inj hi hnd
        rw [← List.get?_eq_getElem?, ← List.get?_eq_getElem?, hget, h2]
      subst hij
      exact h5
    · intro hc
      exact (hmem v (row.getD i 0)).mpr ⟨i, hirow, hget, hO, rfl, hc⟩
  · have hr : List.range ([(9:ℚ)/10, (3:ℚ)/5, (7:ℚ)/10].length) = [0, 1, 2] := rfl
    have s1 : ("default" : String) ≠ "PER" := by decide
    have s2 : ("LOC" : String) ≠ "PER" := by decide
    have s3 : ("PER" : String) ≠ "O" := by decide
    have s4 : ("LOC" : String) ≠ "O" := by decide
    have s5 : ("default" : String) ≠ "LOC" := by decide
    have c1 : (1:ℚ)/2 < 3/5 := by norm_num
    have c2 : ¬ ((4:ℚ)/5 < 7/10) := by norm_num
    rw [multiLabelPredictPoint, hr]
    simp [mlStep, get_label_threshold, Dictionary.get_item_for_index, dictGet,
      s1, s2, s3, s4, s5, c1, c2]
    norm_num

theorem multi_label_attach_iff_threshold_witness :
    ∃ L, multiLabelPredictPoint ⟨["O", "PER", "LOC"]⟩
        [("default", (1:ℚ)/2), ("LOC", (4:ℚ)/5)] false [(9:ℚ)/10, (3:ℚ)/5, (7:ℚ)/10] =
          some L ∧
      ∀ i v, (Dictionary.mk ["O", "PER", "LOC"]).items.get? i = some v → v ≠ "O" →
        (((v, [(9:ℚ)/10, (3:ℚ)/5, (7:ℚ)/10].getD i 0) ∈ L) ↔
          ([(9:ℚ)/10, (3:ℚ)/5, (7:ℚ)/10].getD i 0 >
            (dictGet [("default", (1:ℚ)/2), ("LOC", (4:ℚ)/5)] v).getD ((1:ℚ)/2) ∨
            false = true)) :=
  multi_label_attach_iff_threshold.1 ⟨["O", "PER", "LOC"]⟩
    [("default", (1:ℚ)/2), ("LOC", (4:ℚ)/5)] ((1:ℚ)/2) false
    [(9:ℚ)/10, (3:ℚ)/5, (7:ℚ)/10] (by decide) rfl rfl
